import Mathlib

/-!
Verification of the nucypher-core message layer (treasure maps, node
metadata, retrieval kits) against its specification.

Modelling conventions:
* Bytes are modelled as `List Nat` ("abstract bytes"); the spec declares the
  byte-level encoding engine out of scope, requiring only a lossless,
  deterministic, self-delimiting encoding, which the codecs below provide.
* The external PRE crypto primitives (umbral-pre: signing, capsule
  encryption, key derivation) are out of scope of the spec and assumed
  correct; they are modelled as an ideal functionality: a signature is the
  pair (signer's verifying key, signed message) and verifies by equality;
  capsule encryption tags the plaintext with the recipient key, and
  decryption succeeds exactly for the matching secret key.
* Opaque identifier types (`Address`, `HRAC`, checksums, key-frag material,
  strings) are modelled as `Nat` atoms.
* A Rust function that can panic is modelled with an outer `Option`:
  `none` is a panic, `some x` a normal return of `x`.
-/

/-- Abstract bytes. -/
abbrev Bytes := List Nat

abbrev Address := Nat
abbrev HRAC := Nat
abbrev PublicKey := Nat
abbrev SecretKey := Nat
abbrev VerifiedKeyFrag := Nat
abbrev FleetStateChecksum := Nat

/-- Key derivation of the external crypto primitive (injective). -/
def SecretKey.public_key (sk : SecretKey) : PublicKey := sk

/-! ## Self-delimiting codec primitives

Each encoder `enc : α → Bytes` comes with a decoder
`dec : Bytes → Option (α × Bytes)` consuming exactly the encoding and
returning the remaining input, with the round-trip lemma
`dec (enc x ++ rest) = some (x, rest)`. -/

def encNat (n : Nat) : Bytes := [n]

def decNat : Bytes → Option (Nat × Bytes)
  | [] => none
  | b :: rest => some (b, rest)

theorem decNat_enc (n : Nat) (rest : Bytes) :
    decNat (encNat n ++ rest) = some (n, rest) := rfl

/-- Length-prefixed byte string. -/
def encChunk (xs : Bytes) : Bytes := xs.length :: xs

def decChunk (bs : Bytes) : Option (Bytes × Bytes) :=
  match bs with
  | [] => none
  | n :: rest =>
    if n ≤ rest.length then some (rest.take n, rest.drop n) else none

theorem decChunk_enc (xs : Bytes) (rest : Bytes) :
    decChunk (encChunk xs ++ rest) = some (xs, rest) := by
  simp [encChunk, decChunk, List.take_left, List.drop_left]

/-- Optional length-prefixed byte string. -/
def encOptChunk : Option Bytes → Bytes
  | none => [0]
  | some xs => 1 :: encChunk xs

def decOptChunk (bs : Bytes) : Option (Option Bytes × Bytes) :=
  match bs with
  | [] => none
  | 0 :: rest => some (none, rest)
  | 1 :: rest =>
    match decChunk rest with
    | some (xs, rest2) => some (some xs, rest2)
    | none => none
  | _ :: _ => none

theorem decOptChunk_enc (o : Option Bytes) (rest : Bytes) :
    decOptChunk (encOptChunk o ++ rest) = some (o, rest) := by
  cases o with
  | none => rfl
  | some xs => simp [encOptChunk, decOptChunk, decChunk_enc]

/-- Count-prefixed sequence of self-delimiting items. -/
def encSeq (enc : α → Bytes) (xs : List α) : Bytes :=
  xs.length :: (xs.map enc).flatten

def decSeqAux (dec : Bytes → Option (α × Bytes)) :
    Nat → Bytes → Option (List α × Bytes)
  | 0, bs => some ([], bs)
  | n + 1, bs =>
    match dec bs with
    | none => none
    | some (a, rest) =>
      match decSeqAux dec n rest with
      | none => none
      | some (as, rest2) => some (a :: as, rest2)

def decSeq (dec : Bytes → Option (α × Bytes)) (bs : Bytes) :
    Option (List α × Bytes) :=
  match bs with
  | [] => none
  | n :: rest => decSeqAux dec n rest

theorem decSeqAux_enc (enc : α → Bytes) (dec : Bytes → Option (α × Bytes))
    (h : ∀ x rest, dec (enc x ++ rest) = some (x, rest)) :
    ∀ (xs : List α) (rest : Bytes),
      decSeqAux dec xs.length ((xs.map enc).flatten ++ rest) = some (xs, rest) := by
  intro xs
  induction xs with
  | nil => intro rest; rfl
  | cons a as ih =>
    intro rest
    simp only [List.map_cons, List.flatten_cons, List.length_cons,
      List.append_assoc]
    simp [decSeqAux, h a, ih rest]

theorem decSeq_enc (enc : α → Bytes) (dec : Bytes → Option (α × Bytes))
    (h : ∀ x rest, dec (enc x ++ rest) = some (x, rest))
    (xs : List α) (rest : Bytes) :
    decSeq dec (encSeq enc xs ++ rest) = some (xs, rest) := by
  simp [encSeq, decSeq, decSeqAux_enc enc dec h xs rest]

/-- Any encoder with an exact decoder is injective. -/
theorem enc_injective (enc : α → Bytes) (dec : Bytes → Option (α × Bytes))
    (h : ∀ x rest, dec (enc x ++ rest) = some (x, rest))
    {a b : α} (hab : enc a = enc b) : a = b := by
  have ha := h a []
  have hb := h b []
  rw [hab] at ha
  rw [hb] at ha
  simpa using ha.symm

/-! ## Ideal model of the external crypto primitives (umbral-pre)

The spec treats the PRE scheme as an external collaborator, assumed
correct, with interfaces `sign`/`verify`, `encrypt`/`decrypt_original`
(§6 of the spec). We model it as an ideal functionality. -/

/-- A signature in the ideal model: records the signer's verifying key and
the exact message signed. Verifies by equality of both. -/
structure Signature where
  signedBy : PublicKey
  message : Bytes
  deriving DecidableEq

def Signature.verify (sig : Signature) (pk : PublicKey) (msg : Bytes) : Bool :=
  sig.signedBy == pk && sig.message == msg

/-- The signing capability: holds the secret; `verifying_key` derives the
corresponding public key. -/
structure Signer where
  secret : SecretKey
  deriving DecidableEq

def Signer.verifying_key (s : Signer) : PublicKey := s.secret.public_key

def Signer.sign (s : Signer) (msg : Bytes) : Signature :=
  { signedBy := s.verifying_key, message := msg }

/-- A capsule in the ideal model: determines which secret key can open the
accompanying ciphertext (the key under which encryption was performed). -/
abbrev Capsule := PublicKey

/-- Capsule-based encryption of the ideal model:
`encrypt(pk, bytes) -> (Capsule, ciphertext)`. -/
def encryptBytes (recipient : PublicKey) (plaintext : Bytes) :
    Except String (Capsule × Bytes) :=
  Except.ok (recipient, plaintext)

/-- `decrypt_original(sk, capsule, ciphertext)`: succeeds exactly when `sk`
matches the key the capsule was made for. -/
def decryptOriginal (sk : SecretKey) (capsule : Capsule) (ciphertext : Bytes) :
    Option Bytes :=
  if sk.public_key == capsule then some ciphertext else none

/-- `PublicKey::to_array`: the fixed-length serialized form of a public key
(one abstract byte in this model). -/
def pkToArray (pk : PublicKey) : Bytes := [pk]

/-! ## Data model -/

/-- Modelled from the spec: `EncryptedKeyFrag` (its construction lives in
`key_frag.rs`, not part of the analyzed sources) is "an opaque sealed blob
keyed by recipient", produced by
`EncryptedKeyFrag::new(signer, recipient_pk, hrac, key_fragment)`. -/
structure EncryptedKeyFrag where
  recipient : PublicKey
  hrac : HRAC
  signerKey : PublicKey
  kfrag : VerifiedKeyFrag
  deriving DecidableEq

def EncryptedKeyFrag.new (signer : Signer) (recipient : PublicKey)
    (hrac : HRAC) (kfrag : VerifiedKeyFrag) : EncryptedKeyFrag :=
  { recipient := recipient, hrac := hrac,
    signerKey := signer.verifying_key, kfrag := kfrag }

def encEkf (e : EncryptedKeyFrag) : Bytes :=
  [e.recipient, e.hrac, e.signerKey, e.kfrag]

def decEkf : Bytes → Option (EncryptedKeyFrag × Bytes)
  | r :: h :: s :: k :: rest =>
    some ({ recipient := r, hrac := h, signerKey := s, kfrag := k }, rest)
  | _ => none

theorem decEkf_enc (e : EncryptedKeyFrag) (rest : Bytes) :
    decEkf (encEkf e ++ rest) = some (e, rest) := rfl

/-- `TreasureMap` (treasure_map.rs, lines 20-34). -/
structure TreasureMap where
  threshold : Nat
  hrac : HRAC
  destinations : List (Address × EncryptedKeyFrag)
  policy_encrypting_key : PublicKey
  publisher_verifying_key : PublicKey
  deriving DecidableEq

def encDest (d : Address × EncryptedKeyFrag) : Bytes :=
  d.1 :: encEkf d.2

def decDest (bs : Bytes) : Option ((Address × EncryptedKeyFrag) × Bytes) :=
  match bs with
  | [] => none
  | a :: rest =>
    match decEkf rest with
    | some (e, rest2) => some ((a, e), rest2)
    | none => none

theorem decDest_enc (d : Address × EncryptedKeyFrag) (rest : Bytes) :
    decDest (encDest d ++ rest) = some (d, rest) := rfl

/-- Canonical (unversioned) serialization of a `TreasureMap`
(`messagepack_serialize` of the struct). -/
def tmapEnc (m : TreasureMap) : Bytes :=
  m.threshold :: m.hrac :: encSeq encDest m.destinations
    ++ [m.policy_encrypting_key, m.publisher_verifying_key]

def tmapDec (bs : Bytes) : Option (TreasureMap × Bytes) :=
  match bs with
  | t :: h :: rest =>
    match decSeq decDest rest with
    | some (ds, rest2) =>
      match rest2 with
      | p :: v :: rest3 =>
        some ({ threshold := t, hrac := h, destinations := ds,
                policy_encrypting_key := p, publisher_verifying_key := v },
              rest3)
      | _ => none
    | none => none
  | _ => none

theorem tmapDec_enc (m : TreasureMap) (rest : Bytes) :
    tmapDec (tmapEnc m ++ rest) = some (m, rest) := by
  simp [tmapEnc, tmapDec, List.append_assoc,
    decSeq_enc encDest decDest decDest_enc]

/-! ## Versioned protocol envelope

Modelled from the spec: the envelope logic lives in `versioning.rs`, which
is not among the analyzed sources; spec §4.1 and §6 define it as
`to_bytes(obj) = brand ‖ major ‖ minor ‖ unversioned_bytes(obj)` and
`from_bytes` checking brand, then major, then dispatching to
`unversioned_from_bytes(minor, payload)` (whose `none` result means
minor-version-too-new). -/

def protoToBytes (brand : Bytes) (ver : Nat × Nat) (payload : Bytes) : Bytes :=
  brand ++ [ver.1, ver.2] ++ payload

def protoFromBytes (brand : Bytes) (ver : Nat × Nat)
    (ufb : Nat → Bytes → Option (Except String α)) (bs : Bytes) :
    Except String α :=
  match bs with
  | b0 :: b1 :: b2 :: b3 :: maj :: mnr :: payload =>
    if [b0, b1, b2, b3] ≠ brand then Except.error "brand mismatch"
    else if maj ≠ ver.1 then Except.error "major version mismatch"
    else
      match ufb mnr payload with
      | none => Except.error "minor version too new"
      | some r => r
  | _ => Except.error "deserialization failed"

/-- `messagepack_deserialize`: an exact-consumption decode of the payload. -/
def exactDec (dec : Bytes → Option (α × Bytes)) (bs : Bytes) :
    Except String α :=
  match dec bs with
  | some (x, []) => Except.ok x
  | _ => Except.error "deserialization failed"

theorem exactDec_enc (enc : α → Bytes) (dec : Bytes → Option (α × Bytes))
    (h : ∀ x rest, dec (enc x ++ rest) = some (x, rest)) (x : α) :
    exactDec dec (enc x) = Except.ok x := by
  have := h x []
  simp only [List.append_nil] at this
  simp [exactDec, this]

theorem protoFromBytes_protoToBytes (brand : Bytes) (hb : brand.length = 4)
    (ver : Nat × Nat) (ufb : Nat → Bytes → Option (Except String α))
    (payload : Bytes) :
    protoFromBytes brand ver ufb (protoToBytes brand ver payload)
      = match ufb ver.2 payload with
        | none => Except.error "minor version too new"
        | some r => r := by
  match brand, hb with
  | [b0, b1, b2, b3], _ => simp [protoToBytes, protoFromBytes]

/-! ### ProtocolObjectInner instances (from the source files) -/

def TreasureMap.brand : Bytes := [84, 77, 97, 112]

def TreasureMap.version : Nat × Nat := (1, 0)

def TreasureMap.unversioned_from_bytes (mnr : Nat) (bs : Bytes) :
    Option (Except String TreasureMap) :=
  if mnr = 0 then some (exactDec tmapDec bs) else none

def TreasureMap.to_bytes (m : TreasureMap) : Bytes :=
  protoToBytes TreasureMap.brand TreasureMap.version (tmapEnc m)

/-- `AuthorizedTreasureMap` (treasure_map.rs, lines 110-114). -/
structure AuthorizedTreasureMap where
  signature : Signature
  treasure_map : TreasureMap
  deriving DecidableEq

def encSig (s : Signature) : Bytes := s.signedBy :: encChunk s.message

def decSig (bs : Bytes) : Option (Signature × Bytes) :=
  match bs with
  | [] => none
  | k :: rest =>
    match decChunk rest with
    | some (msg, rest2) => some ({ signedBy := k, message := msg }, rest2)
    | none => none

theorem decSig_enc (s : Signature) (rest : Bytes) :
    decSig (encSig s ++ rest) = some (s, rest) := by
  simp [encSig, decSig, decChunk_enc]

def authEnc (a : AuthorizedTreasureMap) : Bytes :=
  encSig a.signature ++ tmapEnc a.treasure_map

def authDec (bs : Bytes) : Option (AuthorizedTreasureMap × Bytes) :=
  match decSig bs with
  | some (s, rest) =>
    match tmapDec rest with
    | some (m, rest2) => some ({ signature := s, treasure_map := m }, rest2)
    | none => none
  | none => none

theorem authDec_enc (a : AuthorizedTreasureMap) (rest : Bytes) :
    authDec (authEnc a ++ rest) = some (a, rest) := by
  simp [authEnc, authDec, List.append_assoc, decSig_enc, tmapDec_enc]

def AuthorizedTreasureMap.brand : Bytes := [65, 77, 97, 112]

def AuthorizedTreasureMap.version : Nat × Nat := (1, 0)

def AuthorizedTreasureMap.unversioned_from_bytes (mnr : Nat) (bs : Bytes) :
    Option (Except String AuthorizedTreasureMap) :=
  if mnr = 0 then some (exactDec authDec bs) else none

def AuthorizedTreasureMap.to_bytes (a : AuthorizedTreasureMap) : Bytes :=
  protoToBytes AuthorizedTreasureMap.brand AuthorizedTreasureMap.version
    (authEnc a)

def AuthorizedTreasureMap.from_bytes (bs : Bytes) :
    Except String AuthorizedTreasureMap :=
  protoFromBytes AuthorizedTreasureMap.brand AuthorizedTreasureMap.version
    AuthorizedTreasureMap.unversioned_from_bytes bs

theorem auth_from_to_bytes (a : AuthorizedTreasureMap) :
    AuthorizedTreasureMap.from_bytes a.to_bytes = Except.ok a := by
  rw [AuthorizedTreasureMap.from_bytes, AuthorizedTreasureMap.to_bytes,
    protoFromBytes_protoToBytes AuthorizedTreasureMap.brand rfl]
  simp [AuthorizedTreasureMap.unversioned_from_bytes, AuthorizedTreasureMap.version,
    exactDec_enc authEnc authDec authDec_enc]

/-! ### Treasure map operations (treasure_map.rs) -/

/-- `AuthorizedTreasureMap::new` (lines 117-127): signs
`recipient_key_bytes ‖ treasure_map_bytes`. -/
def AuthorizedTreasureMap.new (signer : Signer) (recipient_key : PublicKey)
    (treasure_map : TreasureMap) : AuthorizedTreasureMap :=
  let message := pkToArray recipient_key ++ treasure_map.to_bytes
  { signature := signer.sign message, treasure_map := treasure_map }

/-- `AuthorizedTreasureMap::verify` (lines 129-141): recomputes the bound
message from the supplied recipient key and checks the signature. -/
def AuthorizedTreasureMap.verify (a : AuthorizedTreasureMap)
    (recipient_key : PublicKey) (publisher_verifying_key : PublicKey) :
    Option TreasureMap :=
  let message := pkToArray recipient_key ++ a.treasure_map.to_bytes
  if a.signature.verify publisher_verifying_key message then
    some a.treasure_map
  else
    none

/-- `EncryptedTreasureMap` (treasure_map.rs, lines 170-173). -/
structure EncryptedTreasureMap where
  capsule : Capsule
  ciphertext : Bytes
  deriving DecidableEq

/-- `EncryptedTreasureMap::new` (lines 176-195). -/
def EncryptedTreasureMap.new (signer : Signer) (recipient_key : PublicKey)
    (treasure_map : TreasureMap) : Except String EncryptedTreasureMap :=
  let authorized_tmap := AuthorizedTreasureMap.new signer recipient_key treasure_map
  match encryptBytes recipient_key authorized_tmap.to_bytes with
  | Except.ok (capsule, ciphertext) =>
    Except.ok { capsule := capsule, ciphertext := ciphertext }
  | Except.error e => Except.error e

/-- `EncryptedTreasureMap::decrypt` (lines 198-206). The source `.unwrap()`s
both the decryption and the deserialization, so those failures are panics:
the outer `none` models a panic, `some none` a binding-verification absence,
`some (some m)` success. -/
def EncryptedTreasureMap.decrypt (e : EncryptedTreasureMap) (sk : SecretKey)
    (publisher_verifying_key : PublicKey) : Option (Option TreasureMap) :=
  match decryptOriginal sk e.capsule e.ciphertext with
  | none => none
  | some plaintext =>
    match AuthorizedTreasureMap.from_bytes plaintext with
    | Except.error _ => none
    | Except.ok auth_tmap =>
      some (auth_tmap.verify sk.public_key publisher_verifying_key)

/-- `TreasureMap::new` (lines 41-74); the asserts are panics, modelled by
`none`. -/
def TreasureMap.new (signer : Signer) (hrac : HRAC)
    (policy_encrypting_key : PublicKey)
    (assigned_kfrags : List (Address × PublicKey × VerifiedKeyFrag))
    (threshold : Nat) : Option TreasureMap :=
  if threshold = 0 then none
  else if assigned_kfrags.length < threshold then none
  else
    some
      { threshold := threshold
        hrac := hrac
        destinations := assigned_kfrags.map fun d =>
          (d.1, EncryptedKeyFrag.new signer d.2.1 hrac d.2.2)
        policy_encrypting_key := policy_encrypting_key
        publisher_verifying_key := signer.verifying_key }

/-- `TreasureMap::encrypt` (lines 77-83). -/
def TreasureMap.encrypt (m : TreasureMap) (signer : Signer)
    (recipient_key : PublicKey) : Except String EncryptedTreasureMap :=
  EncryptedTreasureMap.new signer recipient_key m

def EncryptedTreasureMap.brand : Bytes := [69, 77, 97, 112]

def EncryptedTreasureMap.version : Nat × Nat := (1, 0)

def encEtm (e : EncryptedTreasureMap) : Bytes :=
  e.capsule :: encChunk e.ciphertext

def decEtm (bs : Bytes) : Option (EncryptedTreasureMap × Bytes) :=
  match bs with
  | [] => none
  | c :: rest =>
    match decChunk rest with
    | some (ct, rest2) => some ({ capsule := c, ciphertext := ct }, rest2)
    | none => none

theorem decEtm_enc (e : EncryptedTreasureMap) (rest : Bytes) :
    decEtm (encEtm e ++ rest) = some (e, rest) := by
  simp [encEtm, decEtm, decChunk_enc]

def EncryptedTreasureMap.unversioned_from_bytes (mnr : Nat) (bs : Bytes) :
    Option (Except String EncryptedTreasureMap) :=
  if mnr = 0 then some (exactDec decEtm bs) else none

/-! ## Node metadata (node_metadata.rs) -/

/-- `NodeMetadataPayload` (node_metadata.rs, lines 15-36). Strings
(`domain`, `host`) and the opaque Ethereum address are modelled as `Nat`
atoms; the certificate and identity-evidence blobs as byte lists. -/
structure NodeMetadataPayload where
  canonical_address : Address
  domain : Nat
  timestamp_epoch : Nat
  verifying_key : PublicKey
  encrypting_key : PublicKey
  certificate_bytes : Bytes
  host : Nat
  port : Nat
  decentralized_identity_evidence : Option Bytes
  deriving DecidableEq

def encPayload (p : NodeMetadataPayload) : Bytes :=
  p.canonical_address :: p.domain :: p.timestamp_epoch :: p.verifying_key
    :: p.encrypting_key :: (encChunk p.certificate_bytes
    ++ p.host :: p.port :: encOptChunk p.decentralized_identity_evidence)

def decPayload (bs : Bytes) : Option (NodeMetadataPayload × Bytes) :=
  match bs with
  | a :: d :: t :: vk :: ek :: rest =>
    match decChunk rest with
    | some (cert, rest2) =>
      match rest2 with
      | h :: po :: rest3 =>
        match decOptChunk rest3 with
        | some (ev, rest4) =>
          some ({ canonical_address := a, domain := d, timestamp_epoch := t,
                  verifying_key := vk, encrypting_key := ek,
                  certificate_bytes := cert, host := h, port := po,
                  decentralized_identity_evidence := ev }, rest4)
        | none => none
      | _ => none
    | none => none
  | _ => none

theorem decPayload_enc (p : NodeMetadataPayload) (rest : Bytes) :
    decPayload (encPayload p ++ rest) = some (p, rest) := by
  simp [encPayload, decPayload, List.append_assoc, decChunk_enc,
    decOptChunk_enc]

/-- `NodeMetadataPayload::to_bytes` (lines 40-42): the canonical payload
serialization for signing. -/
def NodeMetadataPayload.to_bytes (p : NodeMetadataPayload) : Bytes :=
  encPayload p

/-- `NodeMetadata` (node_metadata.rs, lines 47-51). -/
structure NodeMetadata where
  signature : Signature
  payload : NodeMetadataPayload
  deriving DecidableEq

/-- `NodeMetadata::new` (lines 55-61). -/
def NodeMetadata.new (signer : Signer) (payload : NodeMetadataPayload) :
    NodeMetadata :=
  { signature := signer.sign payload.to_bytes, payload := payload }

/-- `NodeMetadata::verify` (lines 64-77): checks the stored signature over
the payload serialization under the payload's own embedded verifying key. -/
def NodeMetadata.verify (m : NodeMetadata) : Bool :=
  m.signature.verify m.payload.verifying_key m.payload.to_bytes

def encNode (m : NodeMetadata) : Bytes :=
  encSig m.signature ++ encPayload m.payload

def decNode (bs : Bytes) : Option (NodeMetadata × Bytes) :=
  match decSig bs with
  | some (s, rest) =>
    match decPayload rest with
    | some (p, rest2) => some ({ signature := s, payload := p }, rest2)
    | none => none
  | none => none

theorem decNode_enc (m : NodeMetadata) (rest : Bytes) :
    decNode (encNode m ++ rest) = some (m, rest) := by
  simp [encNode, decNode, List.append_assoc, decSig_enc, decPayload_enc]

def NodeMetadata.brand : Bytes := [78, 100, 77, 100]

def NodeMetadata.version : Nat × Nat := (1, 0)

def NodeMetadata.unversioned_from_bytes (mnr : Nat) (bs : Bytes) :
    Option (Except String NodeMetadata) :=
  if mnr = 0 then some (exactDec decNode bs) else none

/-- `MetadataRequest` (node_metadata.rs, lines 109-114). -/
structure MetadataRequest where
  fleet_state_checksum : FleetStateChecksum
  announce_nodes : List NodeMetadata
  deriving DecidableEq

/-- `MetadataRequest::new` (lines 118-123). -/
def MetadataRequest.new (fleet_state_checksum : FleetStateChecksum)
    (announce_nodes : List NodeMetadata) : MetadataRequest :=
  { fleet_state_checksum := fleet_state_checksum,
    announce_nodes := announce_nodes }

def encMdRq (r : MetadataRequest) : Bytes :=
  r.fleet_state_checksum :: encSeq encNode r.announce_nodes

def decMdRq (bs : Bytes) : Option (MetadataRequest × Bytes) :=
  match bs with
  | [] => none
  | c :: rest =>
    match decSeq decNode rest with
    | some (ns, rest2) =>
      some ({ fleet_state_checksum := c, announce_nodes := ns }, rest2)
    | none => none

theorem decMdRq_enc (r : MetadataRequest) (rest : Bytes) :
    decMdRq (encMdRq r ++ rest) = some (r, rest) := by
  simp [encMdRq, decMdRq, decSeq_enc encNode decNode decNode_enc]

def MetadataRequest.brand : Bytes := [77, 100, 82, 113]

def MetadataRequest.version : Nat × Nat := (1, 0)

def MetadataRequest.unversioned_from_bytes (mnr : Nat) (bs : Bytes) :
    Option (Except String MetadataRequest) :=
  if mnr = 0 then some (exactDec decMdRq bs) else none

/-- `VerifiedMetadataResponse` (node_metadata.rs, lines 152-158). -/
structure VerifiedMetadataResponse where
  timestamp_epoch : Nat
  announce_nodes : List NodeMetadata
  deriving DecidableEq

/-- `VerifiedMetadataResponse::new` (lines 162-167). -/
def VerifiedMetadataResponse.new (timestamp_epoch : Nat)
    (announce_nodes : List NodeMetadata) : VerifiedMetadataResponse :=
  { timestamp_epoch := timestamp_epoch, announce_nodes := announce_nodes }

def encVmr (r : VerifiedMetadataResponse) : Bytes :=
  r.timestamp_epoch :: encSeq encNode r.announce_nodes

def decVmr (bs : Bytes) : Option (VerifiedMetadataResponse × Bytes) :=
  match bs with
  | [] => none
  | t :: rest =>
    match decSeq decNode rest with
    | some (ns, rest2) =>
      some ({ timestamp_epoch := t, announce_nodes := ns }, rest2)
    | none => none

theorem decVmr_enc (r : VerifiedMetadataResponse) (rest : Bytes) :
    decVmr (encVmr r ++ rest) = some (r, rest) := by
  simp [encVmr, decVmr, decSeq_enc encNode decNode decNode_enc]

/-- `VerifiedMetadataResponse::to_bytes` (lines 170-172): canonical payload
serialization for signing. -/
def VerifiedMetadataResponse.to_bytes (r : VerifiedMetadataResponse) : Bytes :=
  encVmr r

/-- `MetadataResponse` (node_metadata.rs, lines 177-180). -/
structure MetadataResponse where
  signature : Signature
  response : VerifiedMetadataResponse
  deriving DecidableEq

/-- `MetadataResponse::new` (lines 184-189). -/
def MetadataResponse.new (signer : Signer)
    (response : VerifiedMetadataResponse) : MetadataResponse :=
  { signature := signer.sign response.to_bytes, response := response }

/-- `MetadataResponse::verify` (lines 192-201). -/
def MetadataResponse.verify (m : MetadataResponse) (verifying_pk : PublicKey) :
    Option VerifiedMetadataResponse :=
  if m.signature.verify verifying_pk m.response.to_bytes then
    some m.response
  else
    none

def encMdRs (m : MetadataResponse) : Bytes :=
  encSig m.signature ++ encVmr m.response

def decMdRs (bs : Bytes) : Option (MetadataResponse × Bytes) :=
  match decSig bs with
  | some (s, rest) =>
    match decVmr rest with
    | some (r, rest2) => some ({ signature := s, response := r }, rest2)
    | none => none
  | none => none

theorem decMdRs_enc (m : MetadataResponse) (rest : Bytes) :
    decMdRs (encMdRs m ++ rest) = some (m, rest) := by
  simp [encMdRs, decMdRs, List.append_assoc, decSig_enc, decVmr_enc]

def MetadataResponse.brand : Bytes := [77, 100, 82, 115]

def MetadataResponse.version : Nat × Nat := (1, 0)

def MetadataResponse.unversioned_from_bytes (mnr : Nat) (bs : Bytes) :
    Option (Except String MetadataResponse) :=
  if mnr = 0 then some (exactDec decMdRs bs) else none

/-! ## Retrieval kit (retrieval_kit.rs) -/

/-- Modelled from the spec: `MessageKit` (message_kit.rs is not among the
analyzed sources) carries the capsule of an encrypted message; only its
`capsule` field is consumed here. -/
structure MessageKit where
  capsule : Capsule
  ciphertext : Bytes
  deriving DecidableEq

/-- `RetrievalKit` (retrieval_kit.rs, lines 19-24); the `BTreeSet` of
queried addresses is modelled as a `Finset`. -/
structure RetrievalKit where
  capsule : Capsule
  queried_addresses : Finset Address
  deriving DecidableEq

/-- `RetrievalKit::from_message_kit` (lines 28-33). -/
def RetrievalKit.from_message_kit (message_kit : MessageKit) : RetrievalKit :=
  { capsule := message_kit.capsule, queried_addresses := ∅ }

/-- `RetrievalKit::new` (lines 36-45): collects the iterated addresses into
the set. -/
def RetrievalKit.new (capsule : Capsule) (queried_addresses : List Address) :
    RetrievalKit :=
  { capsule := capsule, queried_addresses := queried_addresses.toFinset }

def encRkit (k : RetrievalKit) : Bytes :=
  k.capsule :: encChunk (k.queried_addresses.sort (· ≤ ·))

def decRkit (bs : Bytes) : Option (RetrievalKit × Bytes) :=
  match bs with
  | [] => none
  | c :: rest =>
    match decChunk rest with
    | some (addrs, rest2) =>
      some ({ capsule := c, queried_addresses := addrs.toFinset }, rest2)
    | none => none

def RetrievalKit.brand : Bytes := [82, 75, 105, 116]

def RetrievalKit.version : Nat × Nat := (1, 0)

def RetrievalKit.unversioned_from_bytes (mnr : Nat) (bs : Bytes) :
    Option (Except String RetrievalKit) :=
  if mnr = 0 then some (exactDec decRkit bs) else none

/-! ## Shared helper lemmas -/

theorem gate_isSome (f : Bytes → Except String α) (mnr : Nat) (bs : Bytes) :
    (if mnr = 0 then some (f bs) else none).isSome = (mnr == 0) := by
  by_cases h : mnr = 0 <;> simp [h]

theorem encPayload_inj {p q : NodeMetadataPayload}
    (h : encPayload p = encPayload q) : p = q :=
  enc_injective encPayload decPayload decPayload_enc h

theorem encVmr_inj {p q : VerifiedMetadataResponse}
    (h : encVmr p = encVmr q) : p = q :=
  enc_injective encVmr decVmr decVmr_enc h

/-! ## Claims -/

/-- C4: `TreasureMap::new` aborts fatally (modelled as `none`) if and only
if the threshold is zero or fewer key frags than the threshold are
assigned; otherwise construction succeeds. -/
theorem treasureMap_new_precondition (signer : Signer) (hrac : HRAC)
    (policy_encrypting_key : PublicKey)
    (assigned_kfrags : List (Address × PublicKey × VerifiedKeyFrag))
    (threshold : Nat) :
    TreasureMap.new signer hrac policy_encrypting_key assigned_kfrags threshold
        = none
      ↔ threshold = 0 ∨ assigned_kfrags.length < threshold := by
  rw [TreasureMap.new]
  split_ifs with h1 h2 <;> simp_all

/-- C5: every successfully constructed treasure map carries the signer's own
verifying key as publisher key, and its destinations match the assigned
key frags in length, addresses and order. -/
theorem treasureMap_new_publisher_binding (signer : Signer) (hrac : HRAC)
    (policy_encrypting_key : PublicKey)
    (assigned_kfrags : List (Address × PublicKey × VerifiedKeyFrag))
    (threshold : Nat) (m : TreasureMap)
    (h : TreasureMap.new signer hrac policy_encrypting_key assigned_kfrags
          threshold = some m) :
    m.publisher_verifying_key = signer.verifying_key
      ∧ m.destinations.length = assigned_kfrags.length
      ∧ m.destinations.map Prod.fst = assigned_kfrags.map Prod.fst := by
  rw [TreasureMap.new] at h
  split_ifs at h
  cases h
  refine ⟨rfl, by simp, ?_⟩
  simp [List.map_map]

/-- Concrete treasure map used as a witness value. -/
def tmW : TreasureMap :=
  { threshold := 1
    hrac := 7
    destinations :=
      [(10, { recipient := 3, hrac := 7, signerKey := 2, kfrag := 4 })]
    policy_encrypting_key := 5
    publisher_verifying_key := 2 }

/-- Witness for C5 at a concrete input. -/
theorem treasureMap_new_publisher_binding_w :
    TreasureMap.new ⟨2⟩ 7 5 [(10, (3, 4))] 1 = some tmW
      ∧ (tmW.publisher_verifying_key = Signer.verifying_key ⟨2⟩
          ∧ tmW.destinations.length = ([(10, ((3 : PublicKey), (4 : VerifiedKeyFrag)))]).length
          ∧ tmW.destinations.map Prod.fst
              = ([(10, ((3 : PublicKey), (4 : VerifiedKeyFrag)))]).map Prod.fst) :=
  ⟨rfl, treasureMap_new_publisher_binding ⟨2⟩ 7 5 [(10, (3, 4))] 1 tmW rfl⟩

/-- C9: a retrieval kit built from a message kit keeps its capsule and
starts with no queried addresses; `RetrievalKit::new` records exactly the
supplied addresses as a set, independent of order and duplicates. -/
theorem retrievalKit_contents (kit : MessageKit) (c : Capsule)
    (l1 l2 : List Address) (h : ∀ a, a ∈ l1 ↔ a ∈ l2) :
    (RetrievalKit.from_message_kit kit).capsule = kit.capsule
      ∧ (RetrievalKit.from_message_kit kit).queried_addresses = ∅
      ∧ (∀ a, a ∈ (RetrievalKit.new c l1).queried_addresses ↔ a ∈ l1)
      ∧ RetrievalKit.new c l1 = RetrievalKit.new c l2 := by
  refine ⟨rfl, rfl, ?_, ?_⟩
  · intro a
    simp [RetrievalKit.new]
  · have : l1.toFinset = l2.toFinset := by
      ext a
      simp [h a]
    simp [RetrievalKit.new, this]

/-- Witness for C9 at a concrete input. -/
theorem retrievalKit_contents_w :
    (RetrievalKit.from_message_kit ⟨6, [1, 2]⟩).capsule
        = (MessageKit.mk 6 [1, 2]).capsule
      ∧ (RetrievalKit.from_message_kit ⟨6, [1, 2]⟩).queried_addresses = ∅
      ∧ (∀ a, a ∈ (RetrievalKit.new 6 [1, 2, 1]).queried_addresses
            ↔ a ∈ [1, 2, 1])
      ∧ RetrievalKit.new 6 [1, 2, 1] = RetrievalKit.new 6 [2, 1] :=
  retrievalKit_contents ⟨6, [1, 2]⟩ 6 [1, 2, 1] [2, 1]
    (by
      intro a
      simp only [List.mem_cons, List.not_mem_nil, or_false]
      tauto)

/-- C6: `NodeMetadata::verify` holds exactly when the stored signature is
valid over the payload's canonical serialization under the key embedded in
the payload; a freshly signed metadata object (signer matching the embedded
key) verifies, and any alteration of the payload after signing breaks
verification. -/
theorem nodeMetadata_self_consistency (m : NodeMetadata) (S : Signer)
    (P P' : NodeMetadataPayload) (hk : S.verifying_key = P.verifying_key)
    (hne : P' ≠ P) :
    (m.verify = true
        ↔ m.signature.signedBy = m.payload.verifying_key
            ∧ m.signature.message = m.payload.to_bytes)
      ∧ (NodeMetadata.new S P).verify = true
      ∧ ({ NodeMetadata.new S P with payload := P' } : NodeMetadata).verify
          = false := by
  refine ⟨?_, ?_, ?_⟩
  · simp [NodeMetadata.verify, Signature.verify]
  · simp [NodeMetadata.verify, NodeMetadata.new, Signature.verify,
      Signer.sign, hk]
  · have hb : P.to_bytes ≠ P'.to_bytes := by
      intro hby
      exact hne (encPayload_inj hby).symm
    simp [NodeMetadata.verify, NodeMetadata.new, Signature.verify,
      Signer.sign, NodeMetadataPayload.to_bytes] at hb ⊢
    intro _
    exact hb

/-- Concrete node metadata payload used as a witness value. -/
def pW : NodeMetadataPayload :=
  { canonical_address := 11
    domain := 1
    timestamp_epoch := 100
    verifying_key := 4
    encrypting_key := 5
    certificate_bytes := [9, 9]
    host := 2
    port := 443
    decentralized_identity_evidence := some [3] }

/-- Witness for C6 at a concrete input (the altered payload bumps
the timestamp). -/
theorem nodeMetadata_self_consistency_w :
    ((NodeMetadata.new ⟨4⟩ pW).verify = true
        ↔ (NodeMetadata.new ⟨4⟩ pW).signature.signedBy
              = (NodeMetadata.new ⟨4⟩ pW).payload.verifying_key
            ∧ (NodeMetadata.new ⟨4⟩ pW).signature.message
              = (NodeMetadata.new ⟨4⟩ pW).payload.to_bytes)
      ∧ (NodeMetadata.new ⟨4⟩ pW).verify = true
      ∧ ({ NodeMetadata.new ⟨4⟩ pW with
            payload := { pW with timestamp_epoch := 101 } } : NodeMetadata).verify
          = false :=
  nodeMetadata_self_consistency (NodeMetadata.new ⟨4⟩ pW) ⟨4⟩ pW
    { pW with timestamp_epoch := 101 } rfl (by decide)

/-- C7: a metadata response verifies exactly under the signer's verifying
key, returning the payload; under any other key, or after any tampering
with the response payload, `verify` returns the absence value `none`. -/
theorem metadataResponse_verify_binding (X : Signer)
    (R R' : VerifiedMetadataResponse) (pk : PublicKey) (hne : R' ≠ R) :
    (MetadataResponse.new X R).verify X.verifying_key = some R
      ∧ (pk ≠ X.verifying_key → (MetadataResponse.new X R).verify pk = none)
      ∧ ({ MetadataResponse.new X R with response := R' } :
          MetadataResponse).verify pk = none := by
  refine ⟨?_, ?_, ?_⟩
  · simp [MetadataResponse.verify, MetadataResponse.new, Signature.verify,
      Signer.sign]
  · intro hpk
    simp [MetadataResponse.verify, MetadataResponse.new, Signature.verify,
      Signer.sign]
    intro h
    exact absurd h.symm hpk
  · have hb : R.to_bytes ≠ R'.to_bytes := by
      intro hby
      exact hne (encVmr_inj hby).symm
    simp [MetadataResponse.verify, MetadataResponse.new, Signature.verify,
      Signer.sign, VerifiedMetadataResponse.to_bytes] at hb ⊢
    intro _
    exact hb

/-- Witness for C7 at a concrete input (tampering bumps
`timestamp_epoch`; the embedded node metadata stays intact). -/
theorem metadataResponse_verify_binding_w :
    (MetadataResponse.new ⟨4⟩ ⟨50, [NodeMetadata.new ⟨4⟩ pW]⟩).verify
        (Signer.verifying_key ⟨4⟩)
        = some ⟨50, [NodeMetadata.new ⟨4⟩ pW]⟩
      ∧ ((8 : PublicKey) ≠ Signer.verifying_key ⟨4⟩ →
          (MetadataResponse.new ⟨4⟩ ⟨50, [NodeMetadata.new ⟨4⟩ pW]⟩).verify 8
            = none)
      ∧ ({ MetadataResponse.new ⟨4⟩ ⟨50, [NodeMetadata.new ⟨4⟩ pW]⟩ with
            response := ⟨51, [NodeMetadata.new ⟨4⟩ pW]⟩ } :
          MetadataResponse).verify 8 = none :=
  metadataResponse_verify_binding ⟨4⟩ ⟨50, [NodeMetadata.new ⟨4⟩ pW]⟩
    ⟨51, [NodeMetadata.new ⟨4⟩ pW]⟩ 8 (by decide)

/-- C8: each of the seven protocol object types reports version (1, 0),
carries its fixed four-byte ASCII brand, and attempts payload
deserialization exactly when the minor version is 0 (returning the
minor-version-too-new marker `none` for every positive minor version). -/
theorem protocol_version_gating :
    NodeMetadata.brand = "NdMd".data.map Char.toNat
      ∧ MetadataRequest.brand = "MdRq".data.map Char.toNat
      ∧ MetadataResponse.brand = "MdRs".data.map Char.toNat
      ∧ RetrievalKit.brand = "RKit".data.map Char.toNat
      ∧ TreasureMap.brand = "TMap".data.map Char.toNat
      ∧ AuthorizedTreasureMap.brand = "AMap".data.map Char.toNat
      ∧ EncryptedTreasureMap.brand = "EMap".data.map Char.toNat
      ∧ NodeMetadata.version = (1, 0)
      ∧ MetadataRequest.version = (1, 0)
      ∧ MetadataResponse.version = (1, 0)
      ∧ RetrievalKit.version = (1, 0)
      ∧ TreasureMap.version = (1, 0)
      ∧ AuthorizedTreasureMap.version = (1, 0)
      ∧ EncryptedTreasureMap.version = (1, 0)
      ∧ (∀ mnr bs,
          (NodeMetadata.unversioned_from_bytes mnr bs).isSome = (mnr == 0))
      ∧ (∀ mnr bs,
          (MetadataRequest.unversioned_from_bytes mnr bs).isSome = (mnr == 0))
      ∧ (∀ mnr bs,
          (MetadataResponse.unversioned_from_bytes mnr bs).isSome = (mnr == 0))
      ∧ (∀ mnr bs,
          (RetrievalKit.unversioned_from_bytes mnr bs).isSome = (mnr == 0))
      ∧ (∀ mnr bs,
          (TreasureMap.unversioned_from_bytes mnr bs).isSome = (mnr == 0))
      ∧ (∀ mnr bs,
          (AuthorizedTreasureMap.unversioned_from_bytes mnr bs).isSome
            = (mnr == 0))
      ∧ (∀ mnr bs,
          (EncryptedTreasureMap.unversioned_from_bytes mnr bs).isSome
            = (mnr == 0)) := by
  refine ⟨by decide, by decide, by decide, by decide, by decide, by decide,
    by decide, rfl, rfl, rfl, rfl, rfl, rfl, rfl, ?_, ?_, ?_, ?_, ?_, ?_, ?_⟩
    <;> intro mnr bs
  · exact gate_isSome (exactDec decNode) mnr bs
  · exact gate_isSome (exactDec decMdRq) mnr bs
  · exact gate_isSome (exactDec decMdRs) mnr bs
  · exact gate_isSome (exactDec decRkit) mnr bs
  · exact gate_isSome (exactDec tmapDec) mnr bs
  · exact gate_isSome (exactDec authDec) mnr bs
  · exact gate_isSome (exactDec decEtm) mnr bs

/-- C2: encrypting a treasure map for a recipient and decrypting with the
matching secret key and the signer's verifying key recovers the original
map. -/
theorem treasureMap_encrypt_decrypt_roundtrip (m : TreasureMap) (S : Signer)
    (sk : SecretKey) (E : EncryptedTreasureMap)
    (hE : m.encrypt S sk.public_key = Except.ok E) :
    E.decrypt sk S.verifying_key = some (some m) := by
  rw [TreasureMap.encrypt, EncryptedTreasureMap.new] at hE
  simp only [encryptBytes, Except.ok.injEq] at hE
  subst hE
  simp [EncryptedTreasureMap.decrypt, decryptOriginal, auth_from_to_bytes,
    AuthorizedTreasureMap.verify, AuthorizedTreasureMap.new, Signer.sign,
    Signature.verify, pkToArray]

/-- Concrete encrypted treasure map used as a witness value: `tmW`
encrypted by signer 3 for the public key of secret key 9. -/
def etmW : EncryptedTreasureMap :=
  { capsule := 9, ciphertext := (AuthorizedTreasureMap.new ⟨3⟩ 9 tmW).to_bytes }

/-- Witness for C2 at a concrete input. -/
theorem treasureMap_encrypt_decrypt_roundtrip_w :
    tmW.encrypt ⟨3⟩ (SecretKey.public_key 9) = Except.ok etmW
      ∧ etmW.decrypt 9 (Signer.verifying_key ⟨3⟩) = some (some tmW) :=
  ⟨rfl, treasureMap_encrypt_decrypt_roundtrip tmW ⟨3⟩ 9 etmW rfl⟩

/-- C1: a treasure map encrypted for recipient key pair 1 never decrypts to
a map for a different recipient key pair 2: decryption of the original blob
with the second secret key fails outright, so no plaintext is ever
returned; and even a forwarded blob re-encrypted for the second recipient
fails the recomputed binding check, yielding the absence value. -/
theorem treasureMap_substitution_resistance (m : TreasureMap) (P : Signer)
    (sk1 sk2 : SecretKey) (hne : sk1.public_key ≠ sk2.public_key)
    (E : EncryptedTreasureMap)
    (hE : m.encrypt P sk1.public_key = Except.ok E) :
    (E.decrypt sk2 P.verifying_key = none
        ∨ E.decrypt sk2 P.verifying_key = some none)
      ∧ (∀ m', E.decrypt sk2 P.verifying_key ≠ some (some m'))
      ∧ (EncryptedTreasureMap.mk sk2.public_key
            (AuthorizedTreasureMap.new P sk1.public_key m).to_bytes).decrypt
          sk2 P.verifying_key = some none := by
  rw [TreasureMap.encrypt, EncryptedTreasureMap.new] at hE
  simp only [encryptBytes, Except.ok.injEq] at hE
  subst hE
  have h2 : sk2.public_key ≠ sk1.public_key := Ne.symm hne
  refine ⟨?_, ?_, ?_⟩
  · left
    simp [EncryptedTreasureMap.decrypt, decryptOriginal, h2]
  · intro m'
    simp [EncryptedTreasureMap.decrypt, decryptOriginal, h2]
  · simp [EncryptedTreasureMap.decrypt, decryptOriginal, auth_from_to_bytes,
      AuthorizedTreasureMap.verify, AuthorizedTreasureMap.new, Signer.sign,
      Signature.verify, pkToArray, hne]

/-- Witness for C1 at a concrete input (secret keys 9 and 2). -/
theorem treasureMap_substitution_resistance_w :
    SecretKey.public_key 9 ≠ SecretKey.public_key 2
      ∧ ((etmW.decrypt 2 (Signer.verifying_key ⟨3⟩) = none
            ∨ etmW.decrypt 2 (Signer.verifying_key ⟨3⟩) = some none)
          ∧ (∀ m', etmW.decrypt 2 (Signer.verifying_key ⟨3⟩)
                ≠ some (some m'))
          ∧ (EncryptedTreasureMap.mk (SecretKey.public_key 2)
                (AuthorizedTreasureMap.new ⟨3⟩ (SecretKey.public_key 9)
                  tmW).to_bytes).decrypt
              2 (Signer.verifying_key ⟨3⟩) = some none) :=
  ⟨by decide,
    treasureMap_substitution_resistance tmW ⟨3⟩ 9 2 (by decide) etmW rfl⟩

/-- C3: evaluation of `EncryptedTreasureMap::decrypt` at a failing input --
a map encrypted for the public key of secret key 1, decrypted with secret
key 2. The decryption primitive fails, and the source `.unwrap()`s that
failure (treasure_map.rs, line 203), so the call panics (the outer `none`
of the model) instead of surfacing a recoverable `DecryptionError` as the
claim requires. -/
theorem decrypt_wrong_key_panics :
    tmW.encrypt ⟨5⟩ (SecretKey.public_key 1)
        = Except.ok (EncryptedTreasureMap.mk 1
            (AuthorizedTreasureMap.new ⟨5⟩ 1 tmW).to_bytes)
      ∧ (EncryptedTreasureMap.mk 1
            (AuthorizedTreasureMap.new ⟨5⟩ 1 tmW).to_bytes).decrypt
          2 (Signer.verifying_key ⟨5⟩) = none :=
  ⟨rfl, rfl⟩

/-- C10: encryption never cross-checks the signer against the map's own
publisher key: for a signer whose verifying key differs from the map's
`publisher_verifying_key`, encryption still proceeds, and the result
decrypts successfully only against the signer's verifying key — against the
map's embedded publisher key the binding check returns the absence value. -/
theorem encrypt_no_publisher_crosscheck (m : TreasureMap) (S : Signer)
    (sk : SecretKey) (hne : S.verifying_key ≠ m.publisher_verifying_key) :
    (∃ E, m.encrypt S sk.public_key = Except.ok E)
      ∧ ∀ E, m.encrypt S sk.public_key = Except.ok E →
          E.decrypt sk S.verifying_key = some (some m)
            ∧ E.decrypt sk m.publisher_verifying_key = some none := by
  constructor
  · exact ⟨_, rfl⟩
  · intro E hE
    rw [TreasureMap.encrypt, EncryptedTreasureMap.new] at hE
    simp only [encryptBytes, Except.ok.injEq] at hE
    subst hE
    constructor
    · simp [EncryptedTreasureMap.decrypt, decryptOriginal, auth_from_to_bytes,
        AuthorizedTreasureMap.verify, AuthorizedTreasureMap.new, Signer.sign,
        Signature.verify, pkToArray]
    · simp [EncryptedTreasureMap.decrypt, decryptOriginal, auth_from_to_bytes,
        AuthorizedTreasureMap.verify, AuthorizedTreasureMap.new, Signer.sign,
        Signature.verify, pkToArray, hne]

/-- Witness for C10 at a concrete input: signer 8 differs from `tmW`'s
publisher key 2. -/
theorem encrypt_no_publisher_crosscheck_w :
    Signer.verifying_key ⟨8⟩ ≠ tmW.publisher_verifying_key
      ∧ ((∃ E, tmW.encrypt ⟨8⟩ (SecretKey.public_key 9) = Except.ok E)
          ∧ ∀ E, tmW.encrypt ⟨8⟩ (SecretKey.public_key 9) = Except.ok E →
              E.decrypt 9 (Signer.verifying_key ⟨8⟩) = some (some tmW)
                ∧ E.decrypt 9 tmW.publisher_verifying_key = some none) :=
  ⟨by decide, encrypt_no_publisher_crosscheck tmW ⟨8⟩ 9 (by decide)⟩
